import Mathlib

/-!
Verification of the greenlight API service's gatekeeping and
write-consistency layer: token authentication header parsing, the
authorization middleware chain, the per-client rate limiter, the
optimistic-concurrency movie store, and graceful shutdown.

Definitions are shallow embeddings of the Go source
(`cmd/api/middleware.go` / the middleware file, `cmd/api/server.go`,
`internal/data/movies.go`); parts of the system that live outside the
repository snapshot (the `golang.org/x/time/rate` token bucket,
`http.Server.Shutdown`, `database/sql` context cancellation, the user
model helpers) are modelled from the specification and marked as such.
-/

/-! ## Authentication middleware (`authenticate`) -/

/-- Outcome of the header-parsing stage of the `authenticate` middleware,
up to (but not including) token validation and store lookup. -/
inductive AuthStep where
  /-- Empty `Authorization` header: the anonymous user is set and the
  downstream handler is invoked. -/
  | anonymous : AuthStep
  /-- The malformed-header guard fired: `invalidAuthenticationTokenResponse`
  is sent and the downstream handler is not invoked. -/
  | invalidTokenResponse : AuthStep
  /-- The guard did not fire and `headerParts[1]` was read successfully: the
  string is treated as a token and passed on to validation and lookup. -/
  | tokenExtracted (tok : String) : AuthStep
  /-- The guard did not fire but `headerParts[1]` indexed past the end of the
  slice: a runtime panic. -/
  | panicked : AuthStep
  deriving DecidableEq, Repr

/-- Splits a character list at every occurrence of the space character,
keeping empty fields, as Go's `strings.Split(s, " ")` does. -/
def splitSpaceChars : List Char → List (List Char)
  | [] => [[]]
  | c :: rest =>
    if c = ' ' then [] :: splitSpaceChars rest
    else
      match splitSpaceChars rest with
      | [] => [[c]]
      | group :: groups => (c :: group) :: groups

/-- Go's `strings.Split(s, " ")`: split on every single space, keeping
empty fields; splitting a non-empty string yields a non-empty list whose
first element is the text before the first space. -/
def stringsSplitSpace (s : String) : List String :=
  (splitSpaceChars s.data).map List.asString

/-- Header-parsing stage of `authenticate`: empty header means anonymous;
otherwise the header is split on single spaces
(`strings.Split(authorizationHeader, " ")`, which keeps empty fields), the
guard `len(headerParts) != 2 && headerParts[0] != "Bearer"` is evaluated
exactly as in the source (with the logical AND), and if it does not fire
`headerParts[1]` is read. -/
def authenticate (authorizationHeader : String) : AuthStep :=
  if authorizationHeader = "" then
    .anonymous
  else
    let headerParts := stringsSplitSpace authorizationHeader
    if headerParts.length ≠ 2 ∧ headerParts[0]! ≠ "Bearer" then
      .invalidTokenResponse
    else
      match headerParts[1]? with
      | some tok => .tokenExtracted tok
      | none => .panicked

/-- Response produced after the `recoverPanic` middleware wraps the
header-parsing stage: a panic in the inner handler is recovered, converted
into a server-error response, and the connection is marked closed. -/
inductive WrappedResponse where
  | nextInvoked (token : Option String) : WrappedResponse
  | invalidTokenResponse : WrappedResponse
  | serverErrorConnectionClosed : WrappedResponse
  deriving DecidableEq, Repr

/-- `recoverPanic` around the header-parsing stage: the deferred `recover`
turns a panic into `serverErrorResponse` with `Connection: close`; all
non-panicking outcomes pass through unchanged. -/
def recoverPanicAuthenticate (h : String) : WrappedResponse :=
  match authenticate h with
  | .anonymous => .nextInvoked none
  | .tokenExtracted tok => .nextInvoked (some tok)
  | .invalidTokenResponse => .invalidTokenResponse
  | .panicked => .serverErrorConnectionClosed

/-! ## Movie store (`internal/data/movies.go`) -/

/-- Errors surfaced by the data layer: `ErrRecordNotFound` and
`ErrEditConflict` from `internal/data/models.go`, plus the context
deadline-exceeded error surfaced unchanged through the `default` branch of
each operation's error switch. -/
inductive DataErr where
  | recordNotFound : DataErr
  | editConflict : DataErr
  | contextDeadlineExceeded : DataErr
  deriving DecidableEq, Repr

/-- The `Movie` record (`internal/data/movies.go`); `CreatedAt` is omitted
as no claim mentions it. `version` is the optimistic-concurrency stamp. -/
structure Movie where
  id : Int
  title : String
  year : Int
  runtime : Int
  genres : List String
  version : Int
  deriving DecidableEq, Repr

/-- The `WHERE id = $5 AND version = $6` condition of the UPDATE statement:
a stored row matches the caller's record iff ids and versions are equal. -/
def movieMatches (m : Movie) (row : Movie) : Bool :=
  row.id == m.id && row.version == m.version

/-- The SQL statement `UPDATE movies SET title=$1, year=$2, runtime=$3,
genres=$4, version = version + 1 WHERE id=$5 AND version=$6 RETURNING
version`, run against a table modelled as a list of rows: every matching
row receives the new payload and an incremented version; the returned list
holds the new versions of the affected rows (scanned by `QueryRow`). -/
def sqlUpdateMovies (table : List Movie) (m : Movie) : List Movie × List Int :=
  (table.map fun row =>
     if movieMatches m row then
       { row with title := m.title, year := m.year, runtime := m.runtime,
                  genres := m.genres, version := row.version + 1 }
     else row,
   (table.filter (movieMatches m)).map fun row => row.version + 1)

/-- `MovieModel.Update`: run the conditional write; `Scan` on zero returned
rows yields `sql.ErrNoRows`, mapped to `ErrEditConflict`; on success the
new version is scanned back into the caller's record. Returns the new
table state together with the caller-visible record. -/
def MovieModel.Update (table : List Movie) (movie : Movie) :
    Except DataErr (List Movie × Movie) :=
  let result := sqlUpdateMovies table movie
  match result.2 with
  | [] => .error .editConflict
  | v :: _ => .ok (result.1, { movie with version := v })

/-- The SQL statement `DELETE FROM movies WHERE id = $1`: removes every row
with the given id (the condition ignores `version`) and reports the number
of affected rows (`RowsAffected`). -/
def sqlDeleteMovies (table : List Movie) (id : Int) : List Movie × Nat :=
  (table.filter fun row => !(row.id == id),
   (table.filter fun row => row.id == id).length)

/-- `MovieModel.Delete`: ids below 1 are rejected with `ErrRecordNotFound`
up front; otherwise the DELETE runs and zero affected rows also yield
`ErrRecordNotFound`. Returns the new table state on success. -/
def MovieModel.Delete (table : List Movie) (id : Int) :
    Except DataErr (List Movie) :=
  if id < 1 then .error .recordNotFound
  else
    let result := sqlDeleteMovies table id
    if result.2 = 0 then .error .recordNotFound
    else .ok result.1

/-- The five store interactions of `MovieModel`; each creates its own
`context.WithTimeout` deadline in the source. -/
inductive MovieOp where
  | insertOp : MovieOp
  | getOp : MovieOp
  | getAllOp : MovieOp
  | updateOp : MovieOp
  | deleteOp : MovieOp
  deriving DecidableEq, Repr

/-- The deadline (in seconds) each `MovieModel` operation passes to
`context.WithTimeout`: `3*time.Second` in `Insert` (line 36), `Get`
(line 55), `GetAll` (line 91), `Update` (line 145) and `Delete`
(line 173) of `internal/data/movies.go`. -/
def movieOpTimeoutSeconds : MovieOp → ℚ
  | .insertOp => 3
  | .getOp => 3
  | .getAllOp => 3
  | .updateOp => 3
  | .deleteOp => 3

/-- Modelled from the spec: `database/sql` context cancellation, which is
not part of the repository snapshot — a store interaction bound to a
context deadline either completes within the deadline and yields its
result, or is cancelled and surfaces the deadline-exceeded error to the
caller instead of blocking indefinitely. `respTime` is the time (seconds)
the underlying store takes to answer. -/
def runStoreCall (deadline respTime : ℚ) (result : Except DataErr α) :
    Except DataErr α :=
  if deadline < respTime then .error .contextDeadlineExceeded else result

/-- A `MovieModel` store interaction with its own operation's deadline
applied, as each operation does via `QueryRowContext` / `QueryContext` /
`ExecContext`. -/
def movieStoreCall (op : MovieOp) (respTime : ℚ)
    (result : Except DataErr α) : Except DataErr α :=
  runStoreCall (movieOpTimeoutSeconds op) respTime result

/-! ## Authorization chain (`requireAuthenticatedUser`,
`requireActivatedUser`, `requirePermission`) -/

/-- The per-request principal. `isAnonymous` is modelled from the spec:
`User.IsAnonymous()` of the user model (not in the repository snapshot)
reports whether the principal is the anonymous user set by `authenticate`
for credential-less requests. `permissions` is the permission-code set the
store returns for this user (`app.models.Permissions.GetAllForUser`). -/
structure User where
  isAnonymous : Bool
  activated : Bool
  permissions : List String
  deriving DecidableEq, Repr

/-- Modelled from the spec: `Permissions.Include` of the permissions model
(not in the repository snapshot) — membership of a permission code in the
user's permission-code slice. -/
def permissionsInclude (permissions : List String) (code : String) : Bool :=
  permissions.contains code

/-- Outcome of a guarded request: which error response was sent, or that
the downstream handler ran. -/
inductive GuardOutcome where
  | authenticationRequired : GuardOutcome
  | inactiveAccount : GuardOutcome
  | notPermitted : GuardOutcome
  | handlerRun : GuardOutcome
  deriving DecidableEq, Repr

/-- `requireAuthenticatedUser`: send `authenticationRequiredResponse` for
an anonymous principal, otherwise invoke the wrapped handler. -/
def requireAuthenticatedUser (next : User → GuardOutcome) (user : User) :
    GuardOutcome :=
  if user.isAnonymous then .authenticationRequired else next user

/-- `requireActivatedUser`: wrap the activation check (send
`inactiveAccountResponse` if `!user.Activated`) inside
`requireAuthenticatedUser`, so the authentication check runs first. -/
def requireActivatedUser (next : User → GuardOutcome) : User → GuardOutcome :=
  requireAuthenticatedUser fun user =>
    if !user.activated then .inactiveAccount else next user

/-- `requirePermission`: wrap the permission-membership check (send
`notPermittedResponse` if the required code is not included) inside
`requireActivatedUser`, so the chain runs
authenticated -> activated -> permission. -/
def requirePermission (code : String) (next : User → GuardOutcome) :
    User → GuardOutcome :=
  requireActivatedUser fun user =>
    if !(permissionsInclude user.permissions code) then .notPermitted
    else next user

/-! ## Rate limiter middleware (`rateLimiter`) -/

/-- Modelled from the spec: the token-bucket state of a
`golang.org/x/time/rate` `rate.Limiter` (an external dependency, not in
the repository snapshot) — steady rate `limit` (tokens per second), burst
capacity `burst`, currently available `tokens`, and the time `last`
(seconds) of the last refill. -/
structure RateLimiter where
  limit : ℚ
  burst : ℚ
  tokens : ℚ
  last : ℚ
  deriving DecidableEq, Repr

/-- Modelled from the spec: `rate.NewLimiter(rate.Limit(rps), burst)` —
a fresh limiter created at time `now` with a full bucket. -/
def NewLimiter (rps burst now : ℚ) : RateLimiter :=
  { limit := rps, burst := burst, tokens := burst, last := now }

/-- Modelled from the spec: `rate.Limiter.Allow()` — refill the bucket
proportionally to the time elapsed since the last refill, capped at the
burst capacity, then consume one unit iff at least one is available;
returns whether the request is admitted together with the new bucket
state. -/
def RateLimiter.Allow (tb : RateLimiter) (now : ℚ) : Bool × RateLimiter :=
  let filled := min tb.burst (tb.tokens + tb.limit * (now - tb.last))
  if 1 ≤ filled then
    (true, { tb with tokens := filled - 1, last := now })
  else
    (false, { tb with tokens := filled, last := now })

/-- One entry of the `clients` map: the per-client limiter and the time of
the client's last request. -/
structure Client where
  limiter : RateLimiter
  lastSeen : ℚ
  deriving DecidableEq, Repr

/-- The `clients` map, keyed by client IP, modelled as an association
list. -/
abbrev Clients := List (String × Client)

/-- Look up the entry for a client IP. -/
def getEntry : Clients → String → Option Client
  | [], _ => none
  | (k, v) :: rest, ip => if k = ip then some v else getEntry rest ip

/-- Write the entry for a client IP, replacing an existing entry in place
or appending a new one. -/
def setEntry : Clients → String → Client → Clients
  | [], ip, c => [(ip, c)]
  | (k, v) :: rest, ip, c =>
    if k = ip then (ip, c) :: rest else (k, v) :: setEntry rest ip c

/-- The limiter configuration (`app.config.limiter`): the feature flag,
requests per second, and burst size. Go's integer `burst` is modelled by
its rational value. -/
structure LimiterConfig where
  enabled : Bool
  rps : ℚ
  burst : ℚ
  deriving DecidableEq, Repr

/-- The per-request body of the `rateLimiter` middleware: when the limiter
is enabled, look up (or lazily create, with a full bucket) the client's
entry, stamp `lastSeen` with the current time, and consult the client's
limiter — a denied check sends `rateLimitExceededResponse` (`false`), an
admitted one falls through to the next handler (`true`). When the limiter
is disabled the whole block is skipped and the request is always passed
on. -/
def rateLimiterHandle (cfg : LimiterConfig) (clients : Clients)
    (ip : String) (now : ℚ) : Bool × Clients :=
  if cfg.enabled then
    let c0 : Client :=
      match getEntry clients ip with
      | none => { limiter := NewLimiter cfg.rps cfg.burst now, lastSeen := 0 }
      | some c => c
    let c1 : Client := { c0 with lastSeen := now }
    let checked := c1.limiter.Allow now
    (checked.1, setEntry clients ip { c1 with limiter := checked.2 })
  else
    (true, clients)

/-- The once-per-minute sweep body run by the background goroutine of
`rateLimiter`: delete every client whose `lastSeen` lies more than
3 minutes (180 seconds) in the past. -/
def sweepClients (now : ℚ) (clients : Clients) : Clients :=
  clients.filter fun e => if now - e.2.lastSeen > 180 then false else true

/-- The value produced by constructing the `rateLimiter` middleware:
whether the background sweep goroutine was launched, and the initial
(empty) clients map. -/
structure RateLimiterMiddleware where
  sweepLaunched : Bool
  initialClients : Clients
  deriving DecidableEq, Repr

/-- Constructing the `rateLimiter` middleware: the `go func()` launching
the once-per-minute sweep is executed unconditionally, before and outside
the per-request handler and its `app.config.limiter.enabled` check, so the
sweep goroutine is launched for every configuration. -/
def rateLimiter (_cfg : LimiterConfig) : RateLimiterMiddleware :=
  { sweepLaunched := true, initialClients := [] }

/-- Run a sequence of admission checks for one client IP at the given
times, threading the clients map; returns the admission results in order
together with the final map. -/
def runChecks (cfg : LimiterConfig) (clients : Clients) (ip : String) :
    List ℚ → List Bool × Clients
  | [] => ([], clients)
  | t :: ts =>
    let step := rateLimiterHandle cfg clients ip t
    let rest := runChecks cfg step.2 ip ts
    (step.1 :: rest.1, rest.2)

/-! ## Graceful shutdown (`serve`) -/

/-- The termination signals relayed to the quit channel by
`signal.Notify(quit, syscall.SIGINT, syscall.SIGTERM)`. -/
inductive TermSignal where
  | sigint : TermSignal
  | sigterm : TermSignal
  deriving DecidableEq, Repr

/-- Observable milestones of a `serve()` run, in the order they occur. -/
inductive ServeEvent where
  /-- The background goroutine received a relayed termination signal. -/
  | signalReceived (s : TermSignal) : ServeEvent
  /-- `server.Shutdown(ctx)` was called with the 20-second context: the
  listener stops accepting new inbound connections. -/
  | shutdownInitiated : ServeEvent
  /-- `server.ListenAndServe()` returned `http.ErrServerClosed`: the
  listening endpoint has fully closed. -/
  | listenerClosed : ServeEvent
  /-- The main goroutine read `Shutdown`'s result from the
  `shutdownError` channel. -/
  | shutdownResultRead : ServeEvent
  /-- The final "stopped server" log line ran and `serve` is about to
  return `nil`. -/
  | completionReported : ServeEvent
  deriving DecidableEq, Repr

/-- Errors `serve()` can return: a startup failure of `ListenAndServe`
(anything other than `http.ErrServerClosed`), or the error `Shutdown`
reports when the grace period elapsed before all in-flight work
finished. -/
inductive ServeError where
  | startupFailure : ServeError
  | shutdownTimeout : ServeError
  deriving DecidableEq, Repr

/-- The grace period (seconds) of the context handed to
`server.Shutdown`: `20*time.Second`. -/
def shutdownGracePeriodSeconds : Nat := 20

/-- Modelled from the spec: `http.Server.Shutdown(ctx)` (standard library,
not in the repository snapshot) — stops accepting new connections and
waits for in-flight requests; returns `nil` iff all in-flight work
finished within the context's grace period, and a non-nil
deadline-exceeded error otherwise. -/
def serverShutdown (drainedWithinGrace : Bool) : Option ServeError :=
  if drainedWithinGrace then none else some .shutdownTimeout

/-- `serve()` after startup, from receipt of a relayed termination signal:
the signal goroutine reads the signal and calls `server.Shutdown` with the
20-second context; `ListenAndServe` then returns `http.ErrServerClosed`
(so the non-`ErrServerClosed` early return is not taken); the main
goroutine reads `Shutdown`'s result from the channel and returns it if it
is non-nil, otherwise it logs "stopped server" and returns `nil`. Produces
the return value together with the ordered event trace. -/
def serve (sig : TermSignal) (drainedWithinGrace : Bool) :
    Option ServeError × List ServeEvent :=
  let preEvents : List ServeEvent :=
    [.signalReceived sig, .shutdownInitiated, .listenerClosed,
     .shutdownResultRead]
  match serverShutdown drainedWithinGrace with
  | some e => (some e, preEvents)
  | none => (none, preEvents ++ [.completionReported])

/-! ## Claim theorems -/

/-- C1: the claim fails on the code. At the concrete header "Basic abc" —
two space-separated parts whose scheme is not "Bearer" — the
malformed-header guard `len(headerParts) != 2 && headerParts[0] != "Bearer"`
does not fire (its first conjunct is false), so `authenticate` does not
respond with the invalid-authentication-token error; instead the second
part "abc" is treated as a token and passed on to validation and lookup. -/
theorem authenticate_basic_scheme_not_rejected :
    ((stringsSplitSpace "Basic abc").length = 2 ∧
     (stringsSplitSpace "Basic abc")[0]! ≠ "Bearer") ∧
    authenticate "Basic abc" = .tokenExtracted "abc" ∧
    authenticate "Basic abc" ≠ .invalidTokenResponse := by
  decide

/-- C10: there is a request at the public interface — Authorization header
exactly "Bearer" — for which the malformed-header guard does not reject the
request: the split yields the one-element slice ["Bearer"], the guard
`len(headerParts) != 2 && headerParts[0] != "Bearer"` evaluates to false
even though the length precondition `len(headerParts) == 2` fails, the read
of `headerParts[1]` indexes past the end of the slice (a panic), and the
fault is contained only by the outer `recoverPanic` wrapper, which converts
it into a server-error response and closes the connection. -/
theorem authenticate_bearer_only_guard_gap :
    stringsSplitSpace "Bearer" = ["Bearer"] ∧
    (stringsSplitSpace "Bearer").length ≠ 2 ∧
    ¬((stringsSplitSpace "Bearer").length ≠ 2 ∧
      (stringsSplitSpace "Bearer")[0]! ≠ "Bearer") ∧
    authenticate "Bearer" = .panicked ∧
    recoverPanicAuthenticate "Bearer" = .serverErrorConnectionClosed := by
  decide

/-- A stored row matches the caller's record exactly when the UPDATE's
WHERE condition holds: equal id and equal version. -/
theorem movieMatches_iff {m row : Movie} :
    movieMatches m row = true ↔ row.id = m.id ∧ row.version = m.version := by
  simp [movieMatches]

/-- Mapping a function that fixes every element of a list leaves the list
unchanged. -/
theorem list_map_eq_self {α : Type} {l : List α} {f : α → α}
    (h : ∀ x ∈ l, f x = x) : l.map f = l := by
  induction l with
  | nil => rfl
  | cons a as ih =>
    simp only [List.map_cons, h a (List.mem_cons_self a as),
      ih fun x hx => h x (List.mem_cons_of_mem a hx)]

/-- `MovieModel.Update` returns the edit-conflict error whenever no stored
row satisfies the WHERE condition. -/
theorem MovieModel.Update_eq_conflict {t : List Movie} {x : Movie}
    (h : t.filter (movieMatches x) = []) :
    MovieModel.Update t x = .error .editConflict := by
  simp [MovieModel.Update, sqlUpdateMovies, h]

/-- C2: `MovieModel.Update` is a single conditional write. When no stored
row has the caller's id and last-observed version it returns
`ErrEditConflict` and leaves the table unchanged; when a matching row
exists it succeeds and makes version observed + 1 visible to the caller;
and after one update from an observed version succeeds, a second update of
the same record starting from that same observed version necessarily
returns `ErrEditConflict` — the two can never both succeed. -/
theorem MovieModel_Update_conditional_write (table : List Movie) (m : Movie) :
    ((∀ row ∈ table, ¬(row.id = m.id ∧ row.version = m.version)) →
      MovieModel.Update table m = .error .editConflict ∧
      (sqlUpdateMovies table m).1 = table) ∧
    ((∃ row ∈ table, row.id = m.id ∧ row.version = m.version) →
      ∃ table', MovieModel.Update table m =
        .ok (table', { m with version := m.version + 1 })) ∧
    (∀ table' m' m2, MovieModel.Update table m = .ok (table', m') →
      m2.id = m.id → m2.version = m.version →
      MovieModel.Update table' m2 = .error .editConflict) := by
  refine ⟨?_, ?_, ?_⟩
  · intro h
    have hfil : table.filter (movieMatches m) = [] := by
      rw [List.filter_eq_nil_iff]
      intro row hrow hmt
      exact h row hrow (movieMatches_iff.mp hmt)
    refine ⟨MovieModel.Update_eq_conflict hfil, ?_⟩
    · exact list_map_eq_self fun row hrow => by
        have hmf : movieMatches m row = false := by
          rw [Bool.eq_false_iff]
          intro hmt
          exact h row hrow (movieMatches_iff.mp hmt)
        simp [hmf]
  · rintro ⟨row, hrow, hmatch⟩
    cases hfl : table.filter (movieMatches m) with
    | nil =>
      exfalso
      rw [List.filter_eq_nil_iff] at hfl
      exact hfl row hrow (movieMatches_iff.mpr hmatch)
    | cons r rs =>
      refine ⟨(sqlUpdateMovies table m).1, ?_⟩
      have hr : r ∈ table.filter (movieMatches m) := by
        rw [hfl]; exact List.mem_cons_self r rs
      have hrv : r.version = m.version :=
        (movieMatches_iff.mp (List.mem_filter.mp hr).2).2
      simp [MovieModel.Update, sqlUpdateMovies, hfl, hrv]
  · intro table' m' m2 hok hid hver
    have htab : table' = (sqlUpdateMovies table m).1 := by
      simp only [MovieModel.Update] at hok
      split at hok
      · cases hok
      · simp only [Except.ok.injEq, Prod.mk.injEq] at hok
        exact hok.1.symm
    subst htab
    have hall : ∀ row' ∈ (sqlUpdateMovies table m).1,
        ¬(movieMatches m2 row' = true) := by
      intro row' hrow' hm2
      simp only [sqlUpdateMovies, List.mem_map] at hrow'
      obtain ⟨row, hrow, hfrow⟩ := hrow'
      obtain ⟨h2id, h2ver⟩ := movieMatches_iff.mp hm2
      by_cases hm : movieMatches m row = true
      · rw [if_pos hm] at hfrow
        obtain ⟨-, hrver⟩ := movieMatches_iff.mp hm
        subst hfrow
        simp only at h2ver
        omega
      · rw [if_neg hm] at hfrow
        subst hfrow
        exact hm (movieMatches_iff.mpr ⟨by rw [h2id, hid], by rw [h2ver, hver]⟩)
    exact MovieModel.Update_eq_conflict (List.filter_eq_nil_iff.mpr hall)

/-- Witness for C2: on a one-row table at version 1, an update observing
version 1 succeeds and yields version 2, and an update observing a
version no stored row has returns the edit-conflict error. -/
theorem MovieModel_Update_conditional_write_witness :
    (∃ table', MovieModel.Update [⟨1, "Casablanca", 1942, 102, ["drama"], 1⟩]
        ⟨1, "Casablanca", 1942, 102, ["drama", "romance"], 1⟩ =
        .ok (table', ⟨1, "Casablanca", 1942, 102, ["drama", "romance"], 2⟩)) ∧
    MovieModel.Update [⟨1, "Casablanca", 1942, 102, ["drama"], 1⟩]
        ⟨1, "Naked Lunch", 1991, 115, ["comedy"], 4⟩ =
      .error .editConflict :=
  ⟨(MovieModel_Update_conditional_write _ _).2.1
      ⟨⟨1, "Casablanca", 1942, 102, ["drama"], 1⟩, by decide, by decide⟩,
   ((MovieModel_Update_conditional_write _ _).1 (by decide)).1⟩

/-- C8: `MovieModel.Delete` rejects ids below 1 with `ErrRecordNotFound`;
for a valid id it removes every row with that id regardless of version
(the DELETE condition never inspects `version`) and succeeds iff at least
one row was deleted; when no row with the id exists it returns
`ErrRecordNotFound`; and `ErrRecordNotFound` is distinct from
`ErrEditConflict`. -/
theorem MovieModel_Delete_unconditional (table : List Movie) (id : Int) :
    (id < 1 → MovieModel.Delete table id = .error .recordNotFound) ∧
    (1 ≤ id → (∃ row ∈ table, row.id = id) →
      MovieModel.Delete table id = .ok (sqlDeleteMovies table id).1 ∧
      ∀ row ∈ (sqlDeleteMovies table id).1, row.id ≠ id) ∧
    (1 ≤ id → (∀ row ∈ table, row.id ≠ id) →
      MovieModel.Delete table id = .error .recordNotFound) ∧
    DataErr.recordNotFound ≠ DataErr.editConflict := by
  refine ⟨?_, ?_, ?_, by decide⟩
  · intro h
    simp [MovieModel.Delete, h]
  · rintro hid ⟨row, hrow, hrid⟩
    have hnlt : ¬(id < 1) := Int.not_lt.mpr hid
    have hmem : row ∈ table.filter (fun r => r.id == id) :=
      List.mem_filter.mpr ⟨hrow, by simp [hrid]⟩
    have hlen : (table.filter (fun r => r.id == id)).length ≠ 0 := by
      intro h0
      rw [List.length_eq_zero] at h0
      rw [h0] at hmem
      cases hmem
    refine ⟨by simp [MovieModel.Delete, sqlDeleteMovies, hnlt, hlen], ?_⟩
    intro r hr
    have hkeep := (List.mem_filter.mp hr).2
    simpa using hkeep
  · intro hid hnone
    have hnlt : ¬(id < 1) := Int.not_lt.mpr hid
    have hfil : table.filter (fun r => r.id == id) = [] :=
      List.filter_eq_nil_iff.mpr fun a ha => by simpa using hnone a ha
    simp [MovieModel.Delete, sqlDeleteMovies, hnlt, hfil]

/-- Witness for C8: deleting id 1 from a one-row table at version 5
succeeds and empties the table; deleting the absent id 2 and the invalid
id 0 both return the record-not-found error. -/
theorem MovieModel_Delete_unconditional_witness :
    MovieModel.Delete [⟨1, "Casablanca", 1942, 102, ["drama"], 5⟩] 1 =
      .ok (sqlDeleteMovies [⟨1, "Casablanca", 1942, 102, ["drama"], 5⟩] 1).1 ∧
    MovieModel.Delete [⟨1, "Casablanca", 1942, 102, ["drama"], 5⟩] 2 =
      .error .recordNotFound ∧
    MovieModel.Delete [⟨1, "Casablanca", 1942, 102, ["drama"], 5⟩] 0 =
      .error .recordNotFound :=
  ⟨((MovieModel_Delete_unconditional _ 1).2.1 (by norm_num)
      ⟨⟨1, "Casablanca", 1942, 102, ["drama"], 5⟩, by decide, by decide⟩).1,
   (MovieModel_Delete_unconditional _ 2).2.2.1 (by norm_num) (by decide),
   (MovieModel_Delete_unconditional _ 0).1 (by norm_num)⟩

/-- C9: every `MovieModel` store interaction — Insert, Get, GetAll,
Update, Delete — runs under a 3-second deadline, and when the underlying
store takes longer than that deadline the call is cancelled and surfaces
the deadline-exceeded error to the caller instead of its result. -/
theorem MovieModel_ops_three_second_deadline (op : MovieOp) :
    movieOpTimeoutSeconds op = 3 ∧
    ∀ {α : Type} (respTime : ℚ) (result : Except DataErr α),
      3 < respTime →
      movieStoreCall op respTime result = .error .contextDeadlineExceeded := by
  have hdl : movieOpTimeoutSeconds op = 3 := by
    cases op <;> rfl
  refine ⟨hdl, ?_⟩
  intro α respTime result h
  simp [movieStoreCall, runStoreCall, hdl, h]

/-- Witness for C9: a store answering after 4 seconds makes the update
interaction surface the deadline-exceeded error in place of its result. -/
theorem MovieModel_ops_three_second_deadline_witness :
    movieOpTimeoutSeconds .updateOp = 3 ∧
    movieStoreCall .updateOp 4
        (.ok ([⟨1, "Casablanca", 1942, 102, ["drama"], 1⟩] : List Movie)) =
      .error .contextDeadlineExceeded :=
  ⟨(MovieModel_ops_three_second_deadline .updateOp).1,
   (MovieModel_ops_three_second_deadline .updateOp).2 4 _ (by norm_num)⟩

/-- C3: the permission-guarded chain evaluates
authenticated -> activated -> permission in that fixed order with
short-circuit at the first failure: an anonymous principal gets the
authentication-required error (not a permission error), an authenticated
but unactivated principal gets the inactive-account error (not a
permission error), an activated principal lacking the required code gets
the not-permitted error, and only a principal passing all three checks
reaches the downstream handler. -/
theorem requirePermission_tier_ordering (code : String)
    (next : User → GuardOutcome) (user : User) :
    (user.isAnonymous = true →
      requirePermission code next user = .authenticationRequired) ∧
    (user.isAnonymous = false → user.activated = false →
      requirePermission code next user = .inactiveAccount) ∧
    (user.isAnonymous = false → user.activated = true →
      permissionsInclude user.permissions code = false →
      requirePermission code next user = .notPermitted) ∧
    (user.isAnonymous = false → user.activated = true →
      permissionsInclude user.permissions code = true →
      requirePermission code next user = next user) := by
  refine ⟨?_, ?_, ?_, ?_⟩ <;>
    intros <;>
    simp_all [requirePermission, requireActivatedUser,
      requireAuthenticatedUser]

/-- Witness for C3: an anonymous principal, an unactivated authenticated
principal, and an activated principal without the required code receive
the first-failing-tier errors, while a fully qualified principal reaches
the handler. -/
theorem requirePermission_tier_ordering_witness :
    requirePermission "movies:write" (fun _ => .handlerRun)
        ⟨true, false, []⟩ = .authenticationRequired ∧
    requirePermission "movies:write" (fun _ => .handlerRun)
        ⟨false, false, ["movies:write"]⟩ = .inactiveAccount ∧
    requirePermission "movies:write" (fun _ => .handlerRun)
        ⟨false, true, ["movies:read"]⟩ = .notPermitted ∧
    requirePermission "movies:write" (fun _ => .handlerRun)
        ⟨false, true, ["movies:read", "movies:write"]⟩ = .handlerRun :=
  ⟨(requirePermission_tier_ordering _ _ _).1 rfl,
   (requirePermission_tier_ordering _ _ _).2.1 rfl rfl,
   (requirePermission_tier_ordering _ _ _).2.2.1 rfl rfl (by decide),
   (requirePermission_tier_ordering _ _ _).2.2.2 rfl rfl (by decide)⟩

/-- C7: after a relayed SIGINT or SIGTERM, `serve` returns `nil` iff all
in-flight work drains within the grace period; when the grace period
elapses first it returns the distinct non-nil shutdown-timeout error; and
completion is reported only after the listening endpoint has fully closed
(the `listenerClosed` event strictly precedes `completionReported` in the
trace, which itself follows `shutdownInitiated`, the point where new
inbound connections stop being accepted). -/
theorem serve_graceful_shutdown (sig : TermSignal) (drained : Bool) :
    shutdownGracePeriodSeconds = 20 ∧
    ((serve sig drained).1 = none ↔ drained = true) ∧
    (drained = false → (serve sig drained).1 = some .shutdownTimeout ∧
      (some ServeError.shutdownTimeout ≠ (none : Option ServeError))) ∧
    ServeEvent.shutdownInitiated ∈ (serve sig drained).2 ∧
    (ServeEvent.completionReported ∈ (serve sig drained).2 →
      List.indexOf ServeEvent.shutdownInitiated (serve sig drained).2 <
        List.indexOf ServeEvent.completionReported (serve sig drained).2 ∧
      List.indexOf ServeEvent.listenerClosed (serve sig drained).2 <
        List.indexOf ServeEvent.completionReported (serve sig drained).2) := by
  cases sig <;> cases drained <;> decide

/-- Witness for C7: with drain failing the grace period, `serve` after
SIGINT returns the shutdown-timeout error; with drain succeeding, `serve`
after SIGTERM returns `nil`. -/
theorem serve_graceful_shutdown_witness :
    (serve .sigint false).1 = some .shutdownTimeout ∧
    (serve .sigterm true).1 = none :=
  ⟨((serve_graceful_shutdown .sigint false).2.2.1 rfl).1,
   (serve_graceful_shutdown .sigterm true).2.1.mpr rfl⟩

/-- C4: under the default configuration (rate 2 tokens/second, burst 4),
starting from a client's first-ever admission check — which creates the
entry with a full bucket — four immediate checks are all admitted, a fifth
immediate check is denied, and a further check 0.5 seconds later is
admitted again; and in general every check refills the bucket
proportionally to elapsed time capped at the burst capacity, admits iff at
least one unit is available, and deducts one unit exactly when it
admits. -/
theorem rateLimiter_token_bucket (tb : RateLimiter) (now : ℚ) :
    (runChecks ⟨true, 2, 4⟩ [] "203.0.113.7" [0, 0, 0, 0, 0, 1/2]).1 =
      [true, true, true, true, false, true] ∧
    ((tb.Allow now).1 = true ↔
      1 ≤ min tb.burst (tb.tokens + tb.limit * (now - tb.last))) ∧
    (tb.Allow now).2.tokens =
      (if 1 ≤ min tb.burst (tb.tokens + tb.limit * (now - tb.last)) then
        min tb.burst (tb.tokens + tb.limit * (now - tb.last)) - 1
      else
        min tb.burst (tb.tokens + tb.limit * (now - tb.last))) := by
  refine ⟨?_, ?_, ?_⟩
  · norm_num [runChecks, rateLimiterHandle, RateLimiter.Allow, NewLimiter,
      getEntry, setEntry]
  · simp only [RateLimiter.Allow]
    split <;> simp_all
  · simp only [RateLimiter.Allow]
    split <;> simp_all

/-- C5 counterexample: with the limiter globally disabled
(`limiter.enabled = false`), the claim that no background sweep task runs
is false — the `go func()` launching the once-per-minute sweep executes
unconditionally when the middleware is constructed, before the per-request
`enabled` check. -/
theorem rateLimiter_disabled_sweep_still_launched :
    (rateLimiter ⟨false, 2, 4⟩).sweepLaunched = true := rfl

/-- C5 amended: with the limiter globally disabled, every admission check
succeeds — the middleware passes every request to the next handler, never
sends the 429 rate-limit response, and leaves the clients map untouched —
but the background sweep goroutine is still launched unconditionally at
middleware construction. -/
theorem rateLimiter_disabled_admits_every_check (cfg : LimiterConfig)
    (clients : Clients) (ip : String) (now : ℚ)
    (h : cfg.enabled = false) :
    rateLimiterHandle cfg clients ip now = (true, clients) ∧
    (rateLimiter cfg).sweepLaunched = true := by
  refine ⟨?_, rfl⟩
  simp [rateLimiterHandle, h]

/-- Witness for C5 (amended): a concrete check under a disabled
configuration is admitted without touching the registry, while the sweep
goroutine was launched. -/
theorem rateLimiter_disabled_admits_every_check_witness :
    rateLimiterHandle ⟨false, 2, 4⟩ [] "203.0.113.9" 7 = (true, []) ∧
    (rateLimiter ⟨false, 2, 4⟩).sweepLaunched = true :=
  rateLimiter_disabled_admits_every_check _ _ _ _ rfl

/-- A key absent from the clients map has no entry. -/
theorem getEntry_not_mem_none {st : Clients} {ip : String}
    (h : ip ∉ st.map Prod.fst) : getEntry st ip = none := by
  induction st with
  | nil => rfl
  | cons kv rest ih =>
    obtain ⟨k, v⟩ := kv
    simp only [List.map_cons, List.mem_cons] at h
    push_neg at h
    simp only [getEntry]
    rw [if_neg fun he => h.1 he.symm]
    exact ih h.2

/-- Filtering the clients map cannot create an entry for an absent key. -/
theorem getEntry_filter_not_mem (q : String × Client → Bool) {st : Clients}
    {ip : String} (h : ip ∉ st.map Prod.fst) :
    getEntry (st.filter q) ip = none := by
  induction st with
  | nil => rfl
  | cons kv rest ih =>
    obtain ⟨k, v⟩ := kv
    simp only [List.map_cons, List.mem_cons] at h
    push_neg at h
    by_cases hq : q (k, v) = true
    · rw [List.filter_cons_of_pos hq]
      simp only [getEntry]
      rw [if_neg fun he => h.1 he.symm]
      exact ih h.2
    · rw [List.filter_cons_of_neg (by simpa using hq)]
      exact ih h.2

/-- The sweep removes the entry of every client whose `lastSeen` lies more
than 3 minutes in the past, provided the registry holds at most one entry
per identity. -/
theorem getEntry_sweep_stale_none {st : Clients} {ip : String} {c : Client}
    {now : ℚ} (hnodup : (st.map Prod.fst).Nodup)
    (hfound : getEntry st ip = some c) (hstale : now - c.lastSeen > 180) :
    getEntry (sweepClients now st) ip = none := by
  induction st with
  | nil => cases hfound
  | cons kv rest ih =>
    obtain ⟨k, v⟩ := kv
    simp only [List.map_cons, List.nodup_cons] at hnodup
    simp only [getEntry] at hfound
    simp only [sweepClients] at ih ⊢
    by_cases hk : k = ip
    · rw [if_pos hk] at hfound
      injection hfound with hvc
      subst hvc
      subst hk
      rw [List.filter_cons_of_neg (by simp [hstale])]
      exact getEntry_filter_not_mem _ hnodup.1
    · rw [if_neg hk] at hfound
      by_cases hq : now - v.lastSeen > 180
      · rw [List.filter_cons_of_neg (by simp [hq])]
        exact ih hnodup.2 hfound
      · rw [List.filter_cons_of_pos (by simp [hq])]
        simp only [getEntry]
        rw [if_neg hk]
        exact ih hnodup.2 hfound

/-- Writing a client's entry makes it the entry found for that client. -/
theorem getEntry_setEntry_self (st : Clients) (ip : String) (c : Client) :
    getEntry (setEntry st ip c) ip = some c := by
  induction st with
  | nil => simp [setEntry, getEntry]
  | cons kv rest ih =>
    obtain ⟨k, v⟩ := kv
    simp only [setEntry]
    by_cases hk : k = ip
    · rw [if_pos hk]
      simp [getEntry]
    · rw [if_neg hk]
      simp only [getEntry]
      rw [if_neg hk]
      exact ih

/-- An admission check for a client with no entry creates a fresh entry
with a full bucket, consumes one unit from it (so the check is admitted
whenever the burst capacity is at least 1), and stamps `lastSeen`. -/
theorem rateLimiterHandle_fresh {cfg : LimiterConfig} {st : Clients}
    {ip : String} {t : ℚ} (henabled : cfg.enabled = true)
    (hget : getEntry st ip = none) (hburst : 1 ≤ cfg.burst) :
    rateLimiterHandle cfg st ip t =
      (true, setEntry st ip ⟨⟨cfg.rps, cfg.burst, cfg.burst - 1, t⟩, t⟩) := by
  simp only [rateLimiterHandle, henabled, if_true, hget, NewLimiter,
    RateLimiter.Allow]
  rw [sub_self, mul_zero, add_zero, min_self, if_pos hburst]

/-- C6: when the background sweep runs, every client entry whose
`lastSeen` lies more than 3 minutes in the past is removed from the
clients map (the registry holding one entry per identity), and the next
admission check for such an evicted identity creates a fresh entry with a
full token bucket — admitted, with burst − 1 tokens left and both
timestamps set to the check time — rather than reusing the old depleted
bucket state. -/
theorem rateLimiter_sweep_eviction (cfg : LimiterConfig) (clients : Clients)
    (ip : String) (c : Client) (now t : ℚ)
    (hnodup : (clients.map Prod.fst).Nodup)
    (hfound : getEntry clients ip = some c)
    (hstale : now - c.lastSeen > 180)
    (henabled : cfg.enabled = true)
    (hburst : 1 ≤ cfg.burst) :
    getEntry (sweepClients now clients) ip = none ∧
    rateLimiterHandle cfg (sweepClients now clients) ip t =
      (true, setEntry (sweepClients now clients) ip
        ⟨⟨cfg.rps, cfg.burst, cfg.burst - 1, t⟩, t⟩) ∧
    getEntry (rateLimiterHandle cfg (sweepClients now clients) ip t).2 ip =
      some ⟨⟨cfg.rps, cfg.burst, cfg.burst - 1, t⟩, t⟩ := by
  have h1 := getEntry_sweep_stale_none hnodup hfound hstale
  have h2 := rateLimiterHandle_fresh henabled h1 hburst (t := t)
  exact ⟨h1, h2, by rw [h2]; exact getEntry_setEntry_self _ _ _⟩

/-- Witness for C6: a client whose depleted entry was last seen 200
seconds before the sweep is evicted, and its next check recreates a fresh
full bucket (3 of 4 tokens left after the admitted check). -/
theorem rateLimiter_sweep_eviction_witness :
    getEntry (sweepClients 200 [("198.51.100.4", ⟨⟨2, 4, 0, 0⟩, 0⟩)])
      "198.51.100.4" = none ∧
    (rateLimiterHandle ⟨true, 2, 4⟩
        (sweepClients 200 [("198.51.100.4", ⟨⟨2, 4, 0, 0⟩, 0⟩)])
        "198.51.100.4" 200).1 = true ∧
    getEntry (rateLimiterHandle ⟨true, 2, 4⟩
        (sweepClients 200 [("198.51.100.4", ⟨⟨2, 4, 0, 0⟩, 0⟩)])
        "198.51.100.4" 200).2 "198.51.100.4" = some ⟨⟨2, 4, 3, 200⟩, 200⟩ := by
  have h := rateLimiter_sweep_eviction ⟨true, 2, 4⟩
    [("198.51.100.4", ⟨⟨2, 4, 0, 0⟩, 0⟩)] "198.51.100.4" ⟨⟨2, 4, 0, 0⟩, 0⟩
    200 200 (by simp) rfl (by norm_num) rfl (by norm_num)
  refine ⟨h.1, by rw [h.2.1], by rw [h.2.2]; norm_num⟩
